import Mathlib

/-!
Verification of the DNA Sequence Comparator (`src/cpp/compare.cpp`).

The program is a single translation unit: `compare_files` opens two files in
binary mode, returns `false` when either open fails, short-circuits on a
filesystem-metadata size mismatch, then reads both files in `buffer_size`
chunks, comparing each chunk with `memcmp` and stopping at the first
divergence; `main` maps the boolean result to exit codes.

Shallow embedding used here:
* a file's contents are a list of bytes (`Bytes`);
* the filesystem is a map from paths to contents, `none` meaning the path
  cannot be opened for reading;
* an `std::ifstream` after opening is its not-yet-consumed byte suffix plus a
  goodness flag; `read(buf, n)` on a regular file yields
  `min n remaining` bytes and sets `eofbit | failbit` (goodness becomes
  false) exactly when fewer than `n` bytes were obtained, which is the
  C++ semantics of `istream::read` (including `n = 0`, where zero bytes
  stored already meets the request and the stream stays good);
* `memcmp(buffer1, buffer2, bytes_read1)` compares the freshly read
  chunks, i.e. the first `min n remaining` bytes of each suffix.

The read loop is embedded twice over the same control flow:
`compareLoop` returns the boolean exactly as the source does, and
`compareLoopRun` additionally counts the bytes obtained by `read` calls and
the number of `memcmp` executions, making the "short-circuits without
reading the rest" statements of the spec expressible.
-/

namespace DNAComparator

/-- Contents of a file: a sequence of bytes. -/
abbrev Bytes := List Nat

/-- A filesystem: each path maps to the contents of the file at that path,
or to `none` when the path cannot be opened for reading. -/
abbrev FileSystem := String → Option Bytes

/-- The `while (file1 && file2)` loop of `compare_files`
(`src/cpp/compare.cpp`, lines 52-70).  `s1`, `s2` are the unread byte
suffixes of the two streams, `g1`, `g2` their goodness flags.  Each
iteration reads `min n s.length` bytes from each stream (`gcount`),
returns `false` if the two counts differ, breaks with `true` when the
count is `0` (EOF), returns `false` on a `memcmp` mismatch of the two
chunks, and otherwise continues on the remaining suffixes, a stream
staying good exactly when its read was complete (`n ≤ s.length`). -/
def compareLoop (n : Nat) (s1 : Bytes) (g1 : Bool) (s2 : Bytes) (g2 : Bool) : Bool :=
  if g1 && g2 then
    if hne : min n s1.length ≠ min n s2.length then false
    else if hz : min n s1.length = 0 then true
    else if s1.take n ≠ s2.take n then false
    else compareLoop n (s1.drop n) (decide (n ≤ s1.length))
                       (s2.drop n) (decide (n ≤ s2.length))
  else true
termination_by s1.length
decreasing_by simp only [List.length_drop]; omega

/-- Observable behaviour of one run of the read loop: the boolean result,
the total number of bytes obtained by `read` calls on both streams, and the
number of `memcmp` calls executed. -/
structure RunStats where
  result : Bool
  bytesRead : Nat
  memcmps : Nat
deriving DecidableEq

/-- `compareLoop` with its observable I/O instrumented: same control flow as
the source loop, additionally accumulating the bytes obtained by the `read`
calls of both streams and the number of `memcmp` executions. -/
def compareLoopRun (n : Nat) (s1 : Bytes) (g1 : Bool) (s2 : Bytes) (g2 : Bool) : RunStats :=
  if g1 && g2 then
    if hne : min n s1.length ≠ min n s2.length then
      ⟨false, min n s1.length + min n s2.length, 0⟩
    else if hz : min n s1.length = 0 then
      ⟨true, min n s1.length + min n s2.length, 0⟩
    else if s1.take n ≠ s2.take n then
      ⟨false, min n s1.length + min n s2.length, 1⟩
    else
      let rest := compareLoopRun n (s1.drop n) (decide (n ≤ s1.length))
                                   (s2.drop n) (decide (n ≤ s2.length))
      ⟨rest.result, min n s1.length + min n s2.length + rest.bytesRead, 1 + rest.memcmps⟩
  else ⟨true, 0, 0⟩
termination_by s1.length
decreasing_by simp only [List.length_drop]; omega

/-- `compare_files` (`src/cpp/compare.cpp`, lines 29-73): returns `false`
when either open fails (line 36), returns `false` when the
filesystem-metadata sizes differ (line 45), otherwise runs the read loop on
the two freshly opened (hence good) streams. -/
def compare_files (fsys : FileSystem) (file1_path file2_path : String)
    (buffer_size_bytes : Nat) : Bool :=
  match fsys file1_path, fsys file2_path with
  | some a, some b =>
    if a.length ≠ b.length then false
    else compareLoop buffer_size_bytes a true b true
  | _, _ => false

/-- `compare_files` with the loop instrumentation exposed: the size
short-circuit and the open failure perform no `read` and no `memcmp`. -/
def compare_filesRun (fsys : FileSystem) (file1_path file2_path : String)
    (buffer_size_bytes : Nat) : RunStats :=
  match fsys file1_path, fsys file2_path with
  | some a, some b =>
    if a.length ≠ b.length then ⟨false, 0, 0⟩
    else compareLoopRun buffer_size_bytes a true b true
  | _, _ => ⟨false, 0, 0⟩

/-- Digit-string value, most significant digit first: the accumulation
`std::stoul` performs on the decimal digits it consumed. -/
def digitsVal (l : List Char) : Nat :=
  l.foldl (fun a c => 10 * a + (c.toNat - 48)) 0

/-- Models `std::stoul(argv[3])` from line 87 of the source, restricted to
the plain-decimal forms (no leading whitespace or sign): a nonempty
all-digit string whose value fits in a 64-bit `unsigned long` yields that
value; `none` models the thrown `std::invalid_argument` / `std::out_of_range`
exception, which the program does not catch. -/
def stoul (s : String) : Option Nat :=
  if s.data ≠ [] ∧ s.data.all Char.isDigit ∧ digitsVal s.data < 2 ^ 64 then
    some (digitsVal s.data)
  else none

/-- The byte buffer size `main` passes to `compare_files`:
`buffer_size_mb * 1024ULL * 1024ULL` in 64-bit unsigned arithmetic, where
`buffer_size_mb` is `stoul(argv[3])` when a third argument is present and
`8` otherwise (`src/cpp/compare.cpp`, lines 85-90).  `getD 0` is only
consumed when the parse succeeded. -/
def mainBufferBytes (argv : List String) : Nat :=
  ((if 4 ≤ argv.length then stoul (argv.getD 3 "") else some 8).getD 0
    * 1024 * 1024) % 2 ^ 64

/-- `main` (`src/cpp/compare.cpp`, lines 75-111).  `argv` includes the
program name at index 0, so `argc = argv.length`.  Fewer than three
`argv` entries (fewer than two path arguments) exits `1`; otherwise the
optional third argument is parsed with `stoul` (`none` models the uncaught
exception terminating the process with no normal exit code) and the
process exits `0` when `compare_files` returned `true`, `2` otherwise. -/
def mainExit (fsys : FileSystem) (argv : List String) : Option Nat :=
  if argv.length < 3 then some 1
  else
    match (if 4 ≤ argv.length then stoul (argv.getD 3 "") else some 8) with
    | none => none
    | some mb =>
      some (if compare_files fsys (argv.getD 1 "") (argv.getD 2 "")
              ((mb * 1024 * 1024) % 2 ^ 64) then 0 else 2)

/-! ### Helper lemmas about the read loop -/

/-- The loop body is skipped as soon as either stream is no longer good:
`while (file1 && file2)` falls through to `return true`. -/
lemma compareLoop_not_good (n : Nat) (s1 s2 : Bytes) (g1 g2 : Bool)
    (h : (g1 && g2) = false) : compareLoop n s1 g1 s2 g2 = true := by
  rw [compareLoop, h]; simp

/-- When both reads obtain zero bytes the loop breaks and reports `true`. -/
lemma compareLoop_zero_read (n : Nat) (s1 s2 : Bytes)
    (h1 : min n s1.length = min n s2.length) (h2 : min n s1.length = 0) :
    compareLoop n s1 true s2 true = true := by
  rw [compareLoop, if_pos (show (true && true) = true from rfl),
    dif_neg (by omega : ¬ min n s1.length ≠ min n s2.length), dif_pos h2]

/-- Instrumented form of `compareLoop_zero_read`: breaking at EOF performs
no `memcmp` and has obtained no bytes. -/
lemma compareLoopRun_zero_read (n : Nat) (s1 s2 : Bytes)
    (h1 : min n s1.length = min n s2.length) (h2 : min n s1.length = 0) :
    compareLoopRun n s1 true s2 true = ⟨true, 0, 0⟩ := by
  rw [compareLoopRun, if_pos (show (true && true) = true from rfl),
    dif_neg (by omega : ¬ min n s1.length ≠ min n s2.length), dif_pos h2]
  rw [← h1, h2]

/-- Fuel-indexed correctness of the read loop: for a positive chunk size
and equal-length suffixes of two freshly good streams, the loop reports
`true` exactly when the suffixes are equal. -/
lemma compareLoop_eq_iff_aux (n : Nat) (hn : 0 < n) :
    ∀ (k : Nat) (a b : Bytes), a.length ≤ k → a.length = b.length →
      (compareLoop n a true b true = true ↔ a = b) := by
  intro k
  induction k with
  | zero =>
    intro a b hk hlen
    have ha : a = [] := List.eq_nil_of_length_eq_zero (Nat.le_zero.mp hk)
    have hb : b = [] := List.eq_nil_of_length_eq_zero (by omega)
    subst ha; subst hb
    simp [compareLoop_zero_read n [] [] rfl (by simp)]
  | succ k ih =>
    intro a b hk hlen
    by_cases ha : a = []
    · have hb : b = [] := List.eq_nil_of_length_eq_zero (by
        rw [← hlen, ha]; rfl)
      subst ha; subst hb
      simp [compareLoop_zero_read n [] [] rfl (by simp)]
    · have hal : 0 < a.length := List.length_pos.mpr ha
      have hmin : min n a.length = min n b.length := by omega
      have hminz : ¬ min n a.length = 0 := by omega
      rw [compareLoop, if_pos (show (true && true) = true from rfl),
        dif_neg (not_not_intro hmin), dif_neg hminz]
      by_cases ht : a.take n = b.take n
      · rw [if_neg (not_not_intro ht)]
        by_cases hna : n ≤ a.length
        · have hnb : n ≤ b.length := hlen ▸ hna
          rw [decide_eq_true hna, decide_eq_true hnb,
            ih (a.drop n) (b.drop n)
              (by simp only [List.length_drop]; omega)
              (by simp only [List.length_drop]; omega)]
          constructor
          · intro hd
            calc a = a.take n ++ a.drop n := (List.take_append_drop n a).symm
              _ = b.take n ++ b.drop n := by rw [ht, hd]
              _ = b := List.take_append_drop n b
          · intro hab; rw [hab]
        · have hab : a = b := by
            have ta : a.take n = a := List.take_of_length_le (le_of_lt (not_le.mp hna))
            have tb : b.take n = b := List.take_of_length_le (by omega)
            rw [← ta, ← tb, ht]
          rw [decide_eq_false hna, compareLoop_not_good n _ _ _ _ (by simp)]
          simp [hab]
      · rw [if_pos ht]
        constructor
        · intro h; exact absurd h (by simp)
        · intro hab; exact absurd (by rw [hab]) ht

/-- Correctness of the read loop for a positive chunk size on equal-length
inputs. -/
lemma compareLoop_eq_iff (n : Nat) (hn : 0 < n) (a b : Bytes)
    (hlen : a.length = b.length) :
    compareLoop n a true b true = true ↔ a = b :=
  compareLoop_eq_iff_aux n hn a.length a b le_rfl hlen

/-- Fuel-indexed agreement of the instrumented loop with the plain one. -/
lemma compareLoopRun_result_aux (n : Nat) :
    ∀ (k : Nat) (s1 : Bytes) (g1 : Bool) (s2 : Bytes) (g2 : Bool), s1.length ≤ k →
      (compareLoopRun n s1 g1 s2 g2).result = compareLoop n s1 g1 s2 g2 := by
  intro k
  induction k with
  | zero =>
    intro s1 g1 s2 g2 hk
    rw [compareLoopRun, compareLoop]
    split
    · split
      · rfl
      · split
        · rfl
        · split
          · rfl
          · exfalso; omega
    · rfl
  | succ k ih =>
    intro s1 g1 s2 g2 hk
    rw [compareLoopRun, compareLoop]
    split
    · split
      · rfl
      · split
        · rfl
        · split
          · rfl
          · exact ih _ _ _ _ (by simp only [List.length_drop]; omega)
    · rfl

/-- The instrumented loop returns the boolean the source loop returns. -/
lemma compareLoopRun_result (n : Nat) (s1 : Bytes) (g1 : Bool) (s2 : Bytes) (g2 : Bool) :
    (compareLoopRun n s1 g1 s2 g2).result = compareLoop n s1 g1 s2 g2 :=
  compareLoopRun_result_aux n s1.length s1 g1 s2 g2 le_rfl

/-! ### The claims -/

/-- C1: for every pair of files that can both be opened for reading and
every positive buffer size, `compare_files` returns `true` if and only if
the byte contents of the two files are identical. -/
theorem compare_files_true_iff_identical (fsys : FileSystem) (p1 p2 : String)
    (n : Nat) (a b : Bytes) (hn : 0 < n)
    (h1 : fsys p1 = some a) (h2 : fsys p2 = some b) :
    compare_files fsys p1 p2 n = true ↔ a = b := by
  simp only [compare_files, h1, h2]
  by_cases hlen : a.length = b.length
  · rw [if_neg (not_not_intro hlen)]
    exact compareLoop_eq_iff n hn a b hlen
  · rw [if_pos hlen]
    constructor
    · intro h; exact absurd h (by simp)
    · intro hab; exact absurd (by rw [hab]) hlen

/-- C2: whenever either path cannot be opened for reading, `compare_files`
reports `false` (the "not equal" outcome); the embedding is a total
function, so no crash is possible on this path. -/
theorem compare_files_open_failure (fsys : FileSystem) (p1 p2 : String)
    (n : Nat) (h : fsys p1 = none ∨ fsys p2 = none) :
    compare_files fsys p1 p2 n = false := by
  rcases h with h | h
  · cases ho2 : fsys p2 <;> simp [compare_files, h, ho2]
  · cases ho1 : fsys p1 <;> simp [compare_files, h, ho1]

/-- C3: when both files open but their filesystem-metadata byte lengths
differ, `compare_files` returns "not equal" immediately, with zero bytes
of content read and zero `memcmp` calls. -/
theorem compare_files_size_mismatch_shortcircuit (fsys : FileSystem)
    (p1 p2 : String) (n : Nat) (a b : Bytes)
    (h1 : fsys p1 = some a) (h2 : fsys p2 = some b)
    (hne : a.length ≠ b.length) :
    compare_files fsys p1 p2 n = false ∧
      compare_filesRun fsys p1 p2 n = ⟨false, 0, 0⟩ := by
  constructor
  · simp only [compare_files, h1, h2]
    rw [if_pos hne]
  · simp only [compare_filesRun, h1, h2]
    rw [if_pos hne]

/-- C4: a loop iteration compares the first `min` actual-read-length bytes
of the two buffers (the freshly read chunks `s1.take n`, `s2.take n`); on a
mismatch it returns "not equal" immediately, having read only the current
chunk from each file (no byte of the remainder) and executed exactly one
`memcmp`. -/
theorem compareLoop_chunk_mismatch_shortcircuit (n : Nat) (s1 s2 : Bytes)
    (hlen : min n s1.length = min n s2.length)
    (hz : min n s1.length ≠ 0)
    (ht : s1.take n ≠ s2.take n) :
    compareLoopRun n s1 true s2 true =
      ⟨false, min n s1.length + min n s2.length, 1⟩ := by
  rw [compareLoopRun, if_pos (show (true && true) = true from rfl),
    dif_neg (not_not_intro hlen), dif_neg hz, if_pos ht]

/-- C5: a loop iteration in which the actual numbers of bytes obtained by
the two reads differ returns "not equal". -/
theorem compareLoop_read_length_mismatch (n : Nat) (s1 s2 : Bytes)
    (h : min n s1.length ≠ min n s2.length) :
    compareLoop n s1 true s2 true = false := by
  rw [compareLoop, if_pos (show (true && true) = true from rfl), dif_pos h]

/-- C6: two openable zero-length files compare equal under every buffer
size, with no `memcmp` executed and no byte of content obtained. -/
theorem compare_files_zero_length_files (fsys : FileSystem) (p1 p2 : String)
    (n : Nat) (h1 : fsys p1 = some []) (h2 : fsys p2 = some []) :
    compare_files fsys p1 p2 n = true ∧
      compare_filesRun fsys p1 p2 n = ⟨true, 0, 0⟩ := by
  constructor
  · simp only [compare_files, h1, h2]
    rw [if_neg (by simp)]
    exact compareLoop_zero_read n [] [] rfl (by simp)
  · simp only [compare_filesRun, h1, h2]
    rw [if_neg (by simp)]
    exact compareLoopRun_zero_read n [] [] rfl (by simp)

/-- C7: for a fixed filesystem and fixed paths, the result of
`compare_files` is the same for any two positive buffer sizes: the outcome
does not depend on the chunk size. -/
theorem compare_files_buffer_size_independent (fsys : FileSystem)
    (p1 p2 : String) (n1 n2 : Nat) (hn1 : 0 < n1) (hn2 : 0 < n2) :
    compare_files fsys p1 p2 n1 = compare_files fsys p1 p2 n2 := by
  cases ho1 : fsys p1 with
  | none => simp [compare_files, ho1]
  | some a =>
    cases ho2 : fsys p2 with
    | none => simp [compare_files, ho1, ho2]
    | some b =>
      simp only [compare_files, ho1, ho2]
      by_cases hlen : a.length = b.length
      · rw [if_neg (not_not_intro hlen), if_neg (not_not_intro hlen)]
        have e1 := compareLoop_eq_iff n1 hn1 a b hlen
        have e2 := compareLoop_eq_iff n2 hn2 a b hlen
        by_cases hab : a = b
        · rw [e1.mpr hab, e2.mpr hab]
        · have f1 : compareLoop n1 a true b true = false := by
            cases hx : compareLoop n1 a true b true
            · rfl
            · exact absurd (e1.mp hx) hab
          have f2 : compareLoop n2 a true b true = false := by
            cases hx : compareLoop n2 a true b true
            · rfl
            · exact absurd (e2.mp hx) hab
          rw [f1, f2]
      · rw [if_pos hlen, if_pos hlen]

/-- C8: `compare_files` is symmetric in its two paths, for every buffer
size (zero included). -/
theorem compare_files_symmetric (fsys : FileSystem) (p1 p2 : String)
    (n : Nat) :
    compare_files fsys p1 p2 n = compare_files fsys p2 p1 n := by
  cases ho1 : fsys p1 with
  | none =>
    cases ho2 : fsys p2 <;> simp [compare_files, ho1, ho2]
  | some a =>
    cases ho2 : fsys p2 with
    | none => simp [compare_files, ho1, ho2]
    | some b =>
      simp only [compare_files, ho1, ho2]
      by_cases hlen : a.length = b.length
      · rw [if_neg (not_not_intro hlen), if_neg (not_not_intro hlen.symm)]
        rcases Nat.eq_zero_or_pos n with hz | hp
        · subst hz
          rw [compareLoop_zero_read 0 a b (by omega) (by omega),
            compareLoop_zero_read 0 b a (by omega) (by omega)]
        · have e1 := compareLoop_eq_iff n hp a b hlen
          have e2 := compareLoop_eq_iff n hp b a hlen.symm
          by_cases hab : a = b
          · rw [e1.mpr hab, e2.mpr hab.symm]
          · have f1 : compareLoop n a true b true = false := by
              cases hx : compareLoop n a true b true
              · rfl
              · exact absurd (e1.mp hx) hab
            have f2 : compareLoop n b true a true = false := by
              cases hx : compareLoop n b true a true
              · rfl
              · exact absurd (e2.mp hx) (fun hba => hab hba.symm)
            rw [f1, f2]
      · rw [if_pos hlen, if_pos (fun h => hlen h.symm)]

/-- C9: whenever `main` terminates with an exit code, that code is `1`
exactly when fewer than two path arguments were supplied (`argc < 3`), `0`
exactly when the paths were given and the files compared equal, and `2`
exactly when the paths were given and the comparison reported not equal
(which includes the case of a file that could not be opened, by
`compare_files_open_failure`). -/
theorem mainExit_exit_codes (fsys : FileSystem) (argv : List String)
    (code : Nat) (h : mainExit fsys argv = some code) :
    (code = 1 ↔ argv.length < 3) ∧
    (code = 0 ↔ 3 ≤ argv.length ∧
      compare_files fsys (argv.getD 1 "") (argv.getD 2 "")
        (mainBufferBytes argv) = true) ∧
    (code = 2 ↔ 3 ≤ argv.length ∧
      compare_files fsys (argv.getD 1 "") (argv.getD 2 "")
        (mainBufferBytes argv) = false) := by
  by_cases hargc : argv.length < 3
  · rw [mainExit, if_pos hargc] at h
    have hc : code = 1 := (Option.some.inj h).symm
    subst hc
    refine ⟨by simp [hargc], ?_, ?_⟩
    · constructor
      · intro h0; exact absurd h0 (by omega)
      · rintro ⟨h3, _⟩; omega
    · constructor
      · intro h2; exact absurd h2 (by omega)
      · rintro ⟨h3, _⟩; omega
  · rw [mainExit, if_neg hargc] at h
    cases hp : (if 4 ≤ argv.length then stoul (argv.getD 3 "") else some 8) with
    | none => rw [hp] at h; cases h
    | some mb =>
      rw [hp] at h
      have hb : mainBufferBytes argv = (mb * 1024 * 1024) % 2 ^ 64 := by
        rw [mainBufferBytes, hp, Option.getD_some]
      have h3 : 3 ≤ argv.length := not_lt.mp hargc
      rw [hb]
      by_cases hcmp : compare_files fsys (argv.getD 1 "") (argv.getD 2 "")
          ((mb * 1024 * 1024) % 2 ^ 64) = true
      · have hc : code = 0 := by
          have hcode := Option.some.inj h
          rw [if_pos hcmp] at hcode
          exact hcode.symm
        subst hc
        refine ⟨by omega, ⟨fun _ => ⟨h3, hcmp⟩, fun _ => rfl⟩, ?_⟩
        constructor
        · intro h02; exact absurd h02 (by omega)
        · rintro ⟨_, hf⟩; rw [hcmp] at hf; cases hf
      · have hfalse : compare_files fsys (argv.getD 1 "") (argv.getD 2 "")
            ((mb * 1024 * 1024) % 2 ^ 64) = false := by
          cases hx : compare_files fsys (argv.getD 1 "") (argv.getD 2 "")
              ((mb * 1024 * 1024) % 2 ^ 64)
          · rfl
          · exact absurd hx hcmp
        have hc : code = 2 := by
          have hcode := Option.some.inj h
          rw [if_neg hcmp] at hcode
          exact hcode.symm
        subst hc
        refine ⟨by omega, ?_, ⟨fun _ => ⟨h3, hfalse⟩, fun _ => rfl⟩⟩
        constructor
        · intro h20; exact absurd h20 (by omega)
        · rintro ⟨_, ht⟩; rw [hfalse] at ht; cases ht

/-- C10: for equal-length openable files, buffer size `0` makes the read
loop terminate on its first iteration with zero bytes read and no content
compared, so `compare_files` returns `true` whatever the contents. -/
theorem compare_files_zero_buffer_trivially_true (fsys : FileSystem)
    (p1 p2 : String) (a b : Bytes)
    (h1 : fsys p1 = some a) (h2 : fsys p2 = some b)
    (hlen : a.length = b.length) :
    compare_files fsys p1 p2 0 = true ∧
      compare_filesRun fsys p1 p2 0 = ⟨true, 0, 0⟩ := by
  constructor
  · simp only [compare_files, h1, h2]
    rw [if_neg (not_not_intro hlen)]
    exact compareLoop_zero_read 0 a b (by omega) (by omega)
  · simp only [compare_filesRun, h1, h2]
    rw [if_neg (not_not_intro hlen)]
    exact compareLoopRun_zero_read 0 a b (by omega) (by omega)

/-! ### Concrete instances for the witnesses -/

/-- A small concrete filesystem used by the witnesses: three-byte files
`"a"` and `"b"` with identical contents, `"c"` of the same length but
differing in the last byte, a one-byte file `"d"`, empty files `"e"` and
`"f"`, and no other openable path. -/
def fsA : FileSystem := fun p =>
  if p = "a" then some [65, 66, 67]
  else if p = "b" then some [65, 66, 67]
  else if p = "c" then some [65, 66, 90]
  else if p = "d" then some [65]
  else if p = "e" then some []
  else if p = "f" then some []
  else none

/-- Witness for C1 at buffer size 2 on two identical three-byte files. -/
theorem compare_files_true_iff_identical_witness :
    0 < 2 ∧ fsA "a" = some [65, 66, 67] ∧ fsA "b" = some [65, 66, 67] ∧
      (compare_files fsA "a" "b" 2 = true ↔ ([65, 66, 67] : Bytes) = [65, 66, 67]) :=
  ⟨by decide, by decide, by decide,
    compare_files_true_iff_identical fsA "a" "b" 2 [65, 66, 67] [65, 66, 67]
      (by decide) (by decide) (by decide)⟩

/-- Witness for C2 on a path that cannot be opened. -/
theorem compare_files_open_failure_witness :
    (fsA "missing" = none ∨ fsA "b" = none) ∧
      compare_files fsA "missing" "b" 8 = false :=
  ⟨Or.inl (by decide),
    compare_files_open_failure fsA "missing" "b" 8 (Or.inl (by decide))⟩

/-- Witness for C3 on a three-byte file against a one-byte file. -/
theorem compare_files_size_mismatch_shortcircuit_witness :
    fsA "a" = some [65, 66, 67] ∧ fsA "d" = some [65] ∧
      ([65, 66, 67] : Bytes).length ≠ ([65] : Bytes).length ∧
      (compare_files fsA "a" "d" 4 = false ∧
        compare_filesRun fsA "a" "d" 4 = ⟨false, 0, 0⟩) :=
  ⟨by decide, by decide, by decide,
    compare_files_size_mismatch_shortcircuit fsA "a" "d" 4 [65, 66, 67] [65]
      (by decide) (by decide) (by decide)⟩

/-- Witness for C4: chunk size 2, mismatch in the first chunk, only that
chunk read from each stream and exactly one `memcmp`. -/
theorem compareLoop_chunk_mismatch_shortcircuit_witness :
    min 2 ([1, 2, 3] : Bytes).length = min 2 ([9, 2, 3] : Bytes).length ∧
      min 2 ([1, 2, 3] : Bytes).length ≠ 0 ∧
      ([1, 2, 3] : Bytes).take 2 ≠ ([9, 2, 3] : Bytes).take 2 ∧
      compareLoopRun 2 [1, 2, 3] true [9, 2, 3] true =
        ⟨false, min 2 ([1, 2, 3] : Bytes).length + min 2 ([9, 2, 3] : Bytes).length, 1⟩ :=
  ⟨by decide, by decide, by decide,
    compareLoop_chunk_mismatch_shortcircuit 2 [1, 2, 3] [9, 2, 3]
      (by decide) (by decide) (by decide)⟩

/-- Witness for C5: a one-byte read against a zero-byte read. -/
theorem compareLoop_read_length_mismatch_witness :
    min 1 ([0] : Bytes).length ≠ min 1 ([] : Bytes).length ∧
      compareLoop 1 [0] true [] true = false :=
  ⟨by decide, compareLoop_read_length_mismatch 1 [0] [] (by decide)⟩

/-- Witness for C6 on two distinct empty files at buffer size 8. -/
theorem compare_files_zero_length_files_witness :
    fsA "e" = some [] ∧ fsA "f" = some [] ∧
      (compare_files fsA "e" "f" 8 = true ∧
        compare_filesRun fsA "e" "f" 8 = ⟨true, 0, 0⟩) :=
  ⟨by decide, by decide,
    compare_files_zero_length_files fsA "e" "f" 8 (by decide) (by decide)⟩

/-- Witness for C7: buffer sizes 1 and 3 on files that differ in one byte. -/
theorem compare_files_buffer_size_independent_witness :
    0 < 1 ∧ 0 < 3 ∧ compare_files fsA "a" "c" 1 = compare_files fsA "a" "c" 3 :=
  ⟨by decide, by decide,
    compare_files_buffer_size_independent fsA "a" "c" 1 3 (by decide) (by decide)⟩

/-- Witness for C9 on an invocation with no path arguments: exit code 1. -/
theorem mainExit_exit_codes_witness :
    mainExit fsA ["compare"] = some 1 ∧
      ((1 = 1 ↔ (["compare"] : List String).length < 3) ∧
       (1 = 0 ↔ 3 ≤ (["compare"] : List String).length ∧
         compare_files fsA ((["compare"] : List String).getD 1 "")
           ((["compare"] : List String).getD 2 "")
           (mainBufferBytes ["compare"]) = true) ∧
       (1 = 2 ↔ 3 ≤ (["compare"] : List String).length ∧
         compare_files fsA ((["compare"] : List String).getD 1 "")
           ((["compare"] : List String).getD 2 "")
           (mainBufferBytes ["compare"]) = false)) :=
  ⟨by decide, mainExit_exit_codes fsA ["compare"] 1 (by decide)⟩

/-- Witness for C10: equal-length files with different contents compare
`true` under buffer size 0, with nothing read and nothing compared. -/
theorem compare_files_zero_buffer_trivially_true_witness :
    fsA "a" = some [65, 66, 67] ∧ fsA "c" = some [65, 66, 90] ∧
      ([65, 66, 67] : Bytes).length = ([65, 66, 90] : Bytes).length ∧
      (compare_files fsA "a" "c" 0 = true ∧
        compare_filesRun fsA "a" "c" 0 = ⟨true, 0, 0⟩) :=
  ⟨by decide, by decide, by decide,
    compare_files_zero_buffer_trivially_true fsA "a" "c" [65, 66, 67] [65, 66, 90]
      (by decide) (by decide) (by decide)⟩

end DNAComparator
